import Mathlib

/-!
# Verification of the picadillo extensions

Shallow embedding of the picadillo repository (pi coding-agent extensions):
the parrot/respond editor pipeline (`runEditor`, `handleEditorResult`,
`findLastAssistantMessage`, `compileAnswers`, the Q&A form state machine and
the `respondHandler` orchestrator) and the gastown session hooks.

External effects (process spawning, file IO, terminal, the LLM call and the
interactive form) are modelled as oracle inputs and explicit effect traces;
JavaScript string truthiness is modelled explicitly.
-/

namespace Picadillo

/-- JS truthiness of a `string | null` value: truthy iff present and non-empty. -/
def jsTruthy : Option String → Bool
  | none => false
  | some s => s ≠ ""

/-- JS truthiness of a plain string: truthy iff non-empty. -/
def jsTruthyStr (s : String) : Bool := s ≠ ""

/-- A single-quote character, used in notification texts. -/
def squote : String := String.singleton (Char.ofNat 39)

/-- The environment variables consulted for the external editor. -/
structure Env where
  VISUAL : Option String
  EDITOR : Option String
deriving DecidableEq, Repr

/-- `process.env.VISUAL || process.env.EDITOR || ""` (first truthy value, else empty). -/
def getEditorCommand (env : Env) : String :=
  if jsTruthy env.VISUAL then env.VISUAL.getD ("")
  else if jsTruthy env.EDITOR then env.EDITOR.getD ("")
  else ""

/-- Notification severity levels of the host `ui.notify` interface. -/
inductive NotifyLevel
  | info
  | warning
  | error
deriving DecidableEq, Repr

/-- An outgoing chat message (`customType`, `content`, `display`). -/
structure OutMessage where
  customType : String
  content : String
  display : Bool
deriving DecidableEq, Repr

/-- Delivery options passed to `sendMessage`. -/
structure Delivery where
  triggerTurn : Bool
  deliverAs : Option String
deriving DecidableEq, Repr

/-- Result of running the external editor (`EditorResult` in both
parrot.ts and mulch.ts). -/
structure EditorResult where
  content : Option String
  error : Option String
  exitCode : Option Int
deriving DecidableEq, Repr

/-- `exitCode !== null && exitCode !== 0`. -/
def exitCodeNonZero : Option Int → Bool
  | none => false
  | some c => c ≠ 0

def PARROT_CUSTOM_MESSAGE_TYPE : String := "🦜 parrot squawking"

/-- The single host-visible action taken by `handleEditorResult`:
either one notification or one sent message. -/
inductive Action
  | notify (text : String) (level : NotifyLevel)
  | send (msg : OutMessage) (delivery : Delivery)
deriving DecidableEq, Repr

/-- parrot.ts `handleEditorResult`: interpret an `EditorResult`, issuing exactly
one notification or sending exactly one message.  The editor command is read
from the environment for the warning text. -/
def handleEditorResult (env : Env) (result : EditorResult) : Action :=
  if jsTruthy result.error then
    .notify ("nvim error: " ++ result.error.getD ("")) .error
  else if exitCodeNonZero result.exitCode then
    .notify (squote ++ getEditorCommand env ++ squote ++ " exited with code "
      ++ toString (result.exitCode.getD 0) ++ ". Not sending message") .warning
  else if !jsTruthy result.content then
    .notify ("No message to send") .info
  else
    .send { customType := PARROT_CUSTOM_MESSAGE_TYPE
          , content := result.content.getD ("")
          , display := true }
          { triggerTurn := true, deliverAs := some ("steer") }

/-! ## Session entries and `findLastAssistantMessage` -/

/-- A content block of a session message (`type` discriminated). -/
inductive ContentBlock
  | text (s : String)
  | thinking (s : String)
  | toolResult (s : String)
  | otherBlock (tag : String)
deriving DecidableEq, Repr

/-- Message roles appearing in a session. -/
inductive Role
  | user
  | assistant
  | toolResult
deriving DecidableEq, Repr

/-- A session message: a role plus an ordered list of content blocks. -/
structure Message where
  role : Role
  content : List ContentBlock
deriving DecidableEq, Repr

/-- A session entry: either a message entry or an entry of another type. -/
inductive SessionEntry
  | message (msg : Message)
  | otherEntry (tag : String)
deriving DecidableEq, Repr

/-- `msg.content.filter(c => c.type === "text").map(c => c.text)`. -/
def textParts (content : List ContentBlock) : List String :=
  content.filterMap fun c =>
    match c with
    | .text s => some s
    | _ => none

/-- Backwards scan of `findLastAssistantMessage`, expressed on the reversed
entry list: skip non-message entries and non-assistant messages, return the
text parts of the first assistant message that has any, joined by a blank line. -/
def findLastAssistantMessageRev : List SessionEntry → Option String
  | [] => none
  | e :: rest =>
    match e with
    | .message m =>
      if m.role = Role.assistant then
        if (textParts m.content).length > 0 then
          some (String.intercalate ("\n\n") (textParts m.content))
        else findLastAssistantMessageRev rest
      else findLastAssistantMessageRev rest
    | .otherEntry _ => findLastAssistantMessageRev rest

/-- `findLastAssistantMessage` (parrot.ts / mulch.ts): iterate the branch from
its last entry backwards. -/
def findLastAssistantMessage (entries : List SessionEntry) : Option String :=
  findLastAssistantMessageRev entries.reverse

/-- Specification-side predicate: an entry of role assistant containing at
least one text segment. -/
def isAssistantTextEntry : SessionEntry → Bool
  | .message m => m.role = Role.assistant && !(textParts m.content).isEmpty
  | .otherEntry _ => false

/-- Specification-side projection: the text segments of an entry joined with a
blank line. -/
def entryJoinedText : SessionEntry → String
  | .message m => String.intercalate ("\n\n") (textParts m.content)
  | .otherEntry _ => ""

/-! ## Gastown session hooks -/

/-- Outcome of one `exec` invocation: resolved stdout, or a rejection. -/
inductive ExecOutcome
  | ok (stdout : String)
  | threw (msg : String)
deriving DecidableEq, Repr

def GASTOWN_MESSAGE_TYPE : String := "gastown"

namespace Gastown

/-- gastown.ts `gastownPrime`: stdout of `gt prime --hook`, or the empty string
if the exec rejected (the rejection is caught and logged). -/
def gastownPrime : ExecOutcome → String
  | .ok stdout => stdout
  | .threw _ => ""

/-- gastown.ts `gastownMailCheck`: stdout of `gt mail check --inject`, or the
empty string if the exec rejected. -/
def gastownMailCheck : ExecOutcome → String
  | .ok stdout => stdout
  | .threw _ => ""

/-- The external `gt` invocations `handleSessionStart` can make, in order. -/
inductive GtCall
  | prime
  | mailCheck
deriving DecidableEq, Repr

/-- gastown.ts `handleSessionStart`: run the prime command; if its text is
empty, stop; otherwise run the mail check and send one combined message.
Returns the ordered trace of `gt` invocations and the message sent, if any. -/
def handleSessionStart (primeExec mailExec : ExecOutcome) :
    List GtCall × Option (OutMessage × Delivery) :=
  let primeText := gastownPrime primeExec
  if primeText = "" then
    ([GtCall.prime], none)
  else
    ([GtCall.prime, GtCall.mailCheck],
      some ({ customType := GASTOWN_MESSAGE_TYPE
            , content := primeText ++ "\n\n" ++ gastownMailCheck mailExec
            , display := true },
            { triggerTurn := true, deliverAs := some ("steer") }))

end Gastown

/-! ## The editor session runner `runEditor` -/

/-- What `spawnSync` returned: exit status (`null` when the editor was killed
by a signal), the launch error message if any, and the terminating signal name
if any. -/
structure SpawnResult where
  status : Option Int
  error : Option String
  signal : Option String
deriving DecidableEq, Repr

/-- Outcome of the `spawnSync` call: a result object, or a thrown exception. -/
inductive SpawnOutcome
  | returned (r : SpawnResult)
  | threw (msg : String)
deriving DecidableEq, Repr

/-- Outcome of `fs.readFileSync` on the temp file after the editor exits. -/
inductive ReadOutcome
  | ok (content : String)
  | failed (msg : String)
deriving DecidableEq, Repr

/-- The external world `runEditor` interacts with: the environment variables,
the spawn outcome and the read-back outcome. -/
structure EditorWorld where
  env : Env
  spawn : SpawnOutcome
  readBack : ReadOutcome
deriving DecidableEq, Repr

/-- Observable side effects of `runEditor`, in order. -/
inductive Effect
  | clearScreen
  | spawnEditor (cmd : String) (file : String)
  | readFile (file : String)
deriving DecidableEq, Repr

/-- `content.replace(/\n$/, "")` on character lists: strip exactly one
trailing newline if present. -/
def stripTrailingNewlineData (l : List Char) : List Char :=
  if l.getLast? = some (Char.ofNat 10) then l.dropLast else l

/-- `content.replace(/\n$/, "")`: strip exactly one trailing newline. -/
def stripTrailingNewline (s : String) : String :=
  String.mk (stripTrailingNewlineData s.data)

/-- parrot.ts / mulch.ts `runEditor`: clear the screen, resolve the editor
command, spawn it on the file, classify the outcome, and read the edited file
back.  Returns the `EditorResult` and the ordered trace of side effects. -/
def runEditor (w : EditorWorld) (filePath : String) : EditorResult × List Effect :=
  let editorCmd := getEditorCommand w.env
  if editorCmd = "" then
    ({ content := none
     , error := some ("No editor configured. Set $VISUAL or $EDITOR environment variable.")
     , exitCode := none },
     [Effect.clearScreen])
  else
    match w.spawn with
    | .threw msg =>
      ({ content := none, error := some msg, exitCode := none },
       [Effect.clearScreen, Effect.spawnEditor editorCmd filePath])
    | .returned r =>
      let exitCode := r.status
      let errorMessage : Option String :=
        if jsTruthy r.signal then some ("Killed by signal: " ++ r.signal.getD (""))
        else r.error
      if jsTruthy errorMessage then
        ({ content := none, error := errorMessage, exitCode := exitCode },
         [Effect.clearScreen, Effect.spawnEditor editorCmd filePath])
      else
        match w.readBack with
        | .ok content =>
          ({ content := some (stripTrailingNewline content), error := none, exitCode := exitCode },
           [Effect.clearScreen, Effect.spawnEditor editorCmd filePath, Effect.readFile filePath])
        | .failed msg =>
          ({ content := none
           , error := some ("Could not read edited file: " ++ msg)
           , exitCode := exitCode },
           [Effect.clearScreen, Effect.spawnEditor editorCmd filePath, Effect.readFile filePath])

/-! ## Q&A compilation (`compileAnswers`) and substring counting -/

/-- `trim` on character lists: drop leading and trailing whitespace. -/
def jsTrimChars (l : List Char) : List Char :=
  ((l.dropWhile Char.isWhitespace).reverse.dropWhile Char.isWhitespace).reverse

/-- JS `String.prototype.trim`. -/
def jsTrim (s : String) : String := String.mk (jsTrimChars s.data)

/-- An extracted question: the question text and optional context. -/
structure ExtractedQuestion where
  question : String
  context : Option String
deriving DecidableEq, Repr

/-- The result of question extraction: an ordered question list. -/
structure ExtractionResult where
  questions : List ExtractedQuestion
deriving DecidableEq, Repr

/-- `answers[i]?.trim() || "(no answer)"`: the trimmed answer at an index, or
the placeholder when the index is missing or the trimmed answer is empty. -/
def answerText (a? : Option String) : String :=
  match a? with
  | none => "(no answer)"
  | some a => if jsTrim a = "" then "(no answer)" else jsTrim a

/-- The lines pushed for the question list, in order: for each question
`Q: <question>`, `> <context>` when context is truthy, `A: <answer or
placeholder>`, and a blank separator.  The answer for the i-th question is
`answers[i]`, tracked here by peeling `head?`/`tail` in step. -/
def compileParts : List ExtractedQuestion → List String → List String
  | [], _ => []
  | q :: qs, answers =>
    ([("Q: " ++ q.question)]
      ++ (if jsTruthy q.context then [("> " ++ q.context.getD (""))] else [])
      ++ [("A: " ++ answerText answers.head?), ""])
    ++ compileParts qs answers.tail

/-- `Array.prototype.join(sep)` on character lists. -/
def joinChars (sep : Char) : List (List Char) → List Char
  | [] => []
  | [x] => x
  | x :: y :: rest => x ++ sep :: joinChars sep (y :: rest)

/-- mulch.ts `compileAnswers`: per-question lines joined with newlines, with
the overall result trimmed. -/
def compileAnswers (questions : List ExtractedQuestion) (answers : List String) : String :=
  String.mk (jsTrimChars (joinChars (Char.ofNat 10) ((compileParts questions answers).map String.data)))

/-- The number of (possibly overlapping) occurrences of `pat` in a character
list: the number of suffixes of which `pat` is a prefix. -/
def countOccs (pat : List Char) : List Char → Nat
  | [] => if pat.isPrefixOf [] then 1 else 0
  | c :: rest => (if pat.isPrefixOf (c :: rest) then 1 else 0) + countOccs pat rest

/-- Occurrence count of a pattern string inside a string. -/
def countOccsStr (pat s : String) : Nat := countOccs pat.data s.data

/-- The literal placeholder emitted for unanswered questions. -/
def noAnswerLit : String := "(no answer)"

/-! ## The Q&A form state machine (`QnAComponent`) -/

/-- Key inputs the form distinguishes (via `matchesKey`); any other input is
a plain character routed to the nested editor when editing. -/
inductive KeyInput
  | escape
  | enter
  | tab
  | right
  | other (c : Char)
deriving DecidableEq, Repr

/-- Mutable state of `QnAComponent`: the focused index (`questions.length`
means the confirmation screen), the answer slots, whether the nested editor is
active (`inputMode`), and the nested editor text. -/
structure QnAState where
  currentIndex : Nat
  answers : List String
  inputMode : Bool
  editorText : String
deriving DecidableEq, Repr

/-- One step of the form: either the component signals completion through
`onDone` (with the compiled transcript, or `none` for cancellation), or it
continues in a new state. -/
inductive QnAStep
  | done (result : Option String)
  | cont (s : QnAState)
deriving DecidableEq, Repr

/-- `questions.every((_, i) => this.answers[i].trim().length > 0)`. -/
def allAnswered (questions : List ExtractedQuestion) (answers : List String) : Bool :=
  (List.range questions.length).all fun i =>
    decide (0 < (jsTrim (answers.getD i (""))).data.length)

/-- `QnAComponent.advance`: move to the next question, or to the confirmation
screen after the last one. -/
def qnaAdvance (questions : List ExtractedQuestion) (s : QnAState) : QnAState :=
  if s.currentIndex < questions.length - 1 then
    { s with currentIndex := s.currentIndex + 1 }
  else
    { s with currentIndex := questions.length }

/-- `QnAComponent.handleInput`, including the nested editor: the top-level
Escape check runs first; in input mode, Enter fires the editor submit callback
(store the answer, leave input mode, advance) and other characters extend the
editor buffer; on the confirmation screen Enter submits when all questions are
answered; otherwise Tab/Right skip ahead and Enter opens the editor seeded with
the stored answer. -/
def qnaHandleInput (questions : List ExtractedQuestion) (s : QnAState)
    (k : KeyInput) : QnAStep :=
  if k = KeyInput.escape then
    .done none
  else if s.inputMode then
    if k = KeyInput.escape then
      .cont { s with inputMode := false, editorText := "" }
    else
      match k with
      | .enter =>
        let answers := s.answers.set s.currentIndex s.editorText
        .cont (qnaAdvance questions
          { s with answers := answers, inputMode := false, editorText := "" })
      | .other c => .cont { s with editorText := s.editorText.push c }
      | _ => .cont s
  else if s.currentIndex = questions.length then
    if k = KeyInput.enter ∧ allAnswered questions s.answers then
      .done (some (compileAnswers questions s.answers))
    else
      .cont s
  else if k = KeyInput.tab ∨ k = KeyInput.right then
    .cont (qnaAdvance questions s)
  else if k = KeyInput.enter then
    .cont { s with inputMode := true, editorText := s.answers.getD s.currentIndex ("") }
  else
    .cont s

/-! ## The respond orchestrator (`respondHandler`) -/

/-- Pipeline modes of the respond extension. -/
inductive RespondMode
  | full
  | tuiOnly
  | editorOnly
deriving DecidableEq, Repr

/-- Outcome of `selectExtractionModel`: resolved, or threw with a message. -/
inductive ModelOutcome
  | ok
  | failed (msg : String)
deriving DecidableEq, Repr

/-- Outcome of `fs.writeFileSync` on the temp file. -/
inductive WriteOutcome
  | ok
  | failed (msg : String)
deriving DecidableEq, Repr

/-- The context and oracle outcomes one `respondHandler` invocation consumes:
host preconditions, the session branch, and the outcomes of the extraction
call, the Q&A form, the temp-file write, the editor run, and the temp-file
delete (`none` means the delete succeeded). -/
structure RespondEnv where
  hasUI : Bool
  hasModel : Bool
  branch : List SessionEntry
  modelOk : ModelOutcome
  extraction : Option ExtractionResult
  qna : Option String
  env : Env
  writeOk : WriteOutcome
  editorResult : EditorResult
  unlinkErr : Option String
deriving DecidableEq, Repr

/-- Everything the host observes from one `respondHandler` invocation: the
notifications issued, in order, and the message sent, if any. -/
structure RespondOutcome where
  notifications : List (String × NotifyLevel)
  sent : Option (OutMessage × Delivery)
deriving DecidableEq, Repr

/-- mulch.ts line 627: `const doEditor = "full";` — a constant string, not a
comparison against `mode`. -/
def doEditor : String := "full"

/-- The final `sendMessage` of `respondHandler`: message type depends on the
mode, content is the compiled text behind a fixed lead-in. -/
def respondSend (mode : RespondMode) (compiled : String) : Option (OutMessage × Delivery) :=
  some ({ customType := if mode = RespondMode.editorOnly then PARROT_CUSTOM_MESSAGE_TYPE else "answers"
        , content := "I answered your questions in the following way:\n\n" ++ compiled
        , display := true },
        { triggerTurn := true, deliverAs := none })

/-- The warning issued when deleting the temp file fails. -/
def unlinkNotifs : Option String → List (String × NotifyLevel)
  | none => []
  | some msg => [("Failed to delete temp file: " ++ msg, NotifyLevel.warning)]

/-- The tail of `respondHandler` from the editor step on, taking the compiled
content produced by the earlier steps: when `doEditor` is truthy, resolve the
editor command (info notice and fall through when unset), write the temp file,
run the editor, delete the temp file, apply the four-way outcome policy, and
finally send. -/
def respondAfterCompile (mode : RespondMode) (env : Env) (writeOk : WriteOutcome)
    (editorResult : EditorResult) (unlinkErr : Option String)
    (compiled : String) : RespondOutcome :=
  if jsTruthyStr doEditor then
    let editorCmd := getEditorCommand env
    if editorCmd = "" then
      { notifications := [("No $EDITOR configured, skipping editor review", NotifyLevel.info)]
      , sent := respondSend mode compiled }
    else
      match writeOk with
      | .failed msg =>
        { notifications := [("Failed to create temp file: " ++ msg, NotifyLevel.error)]
        , sent := none }
      | .ok =>
        if jsTruthy editorResult.error then
          { notifications := unlinkNotifs unlinkErr
              ++ [("Editor error: " ++ editorResult.error.getD (""), NotifyLevel.error)]
          , sent := none }
        else if exitCodeNonZero editorResult.exitCode then
          { notifications := unlinkNotifs unlinkErr
              ++ [(squote ++ editorCmd ++ squote ++ " exited with code "
                    ++ toString (editorResult.exitCode.getD 0)
                    ++ ". Not sending message", NotifyLevel.warning)]
          , sent := none }
        else if !jsTruthy editorResult.content then
          { notifications := unlinkNotifs unlinkErr ++ [("No message to send", NotifyLevel.info)]
          , sent := none }
        else
          { notifications := unlinkNotifs unlinkErr
          , sent := respondSend mode (editorResult.content.getD ("")) }
  else
    { notifications := [], sent := respondSend mode compiled }

/-- mulch.ts `respondHandler`: pre-flight checks, last assistant message
lookup, optional extraction, Q&A form or seeding, editor step, send. -/
def respondHandler (e : RespondEnv) (mode : RespondMode) : RespondOutcome :=
  if !e.hasUI then
    { notifications := [("respond requires interactive mode", NotifyLevel.error)], sent := none }
  else if !e.hasModel then
    { notifications := [("No model selected", NotifyLevel.error)], sent := none }
  else
    match findLastAssistantMessage e.branch with
    | none =>
      { notifications := [("No assistant messages found", NotifyLevel.error)], sent := none }
    | some lastAssistantText =>
      if mode ≠ RespondMode.editorOnly then
        match e.modelOk with
        | .failed msg => { notifications := [(msg, NotifyLevel.error)], sent := none }
        | .ok =>
          match e.extraction with
          | none => { notifications := [("Cancelled", NotifyLevel.info)], sent := none }
          | some extractedResult =>
            if extractedResult.questions.length = 0 then
              respondAfterCompile mode e.env e.writeOk e.editorResult e.unlinkErr lastAssistantText
            else
              match e.qna with
              | none => { notifications := [("Cancelled", NotifyLevel.info)], sent := none }
              | some compiled =>
                respondAfterCompile mode e.env e.writeOk e.editorResult e.unlinkErr compiled
      else
        respondAfterCompile mode e.env e.writeOk e.editorResult e.unlinkErr lastAssistantText

/-! ## Demo values used by the concrete witnesses -/

/-- A session branch with one assistant text message. -/
def demoBranch : List SessionEntry :=
  [SessionEntry.message ⟨Role.assistant, [ContentBlock.text ("Hi")]⟩]

/-- A branch exercising thinking-block skipping and text joining. -/
def demoEntries : List SessionEntry :=
  [SessionEntry.message ⟨Role.user, [ContentBlock.text ("u")]⟩,
   SessionEntry.message ⟨Role.assistant,
     [ContentBlock.thinking ("t"), ContentBlock.text ("a"), ContentBlock.text ("b")]⟩,
   SessionEntry.message ⟨Role.assistant, [ContentBlock.thinking ("only")]⟩]

/-- Environment with `$VISUAL` set. -/
def demoEnvVi : Env := ⟨some ("vi"), none⟩

/-- Environment with neither editor variable set. -/
def demoEnvNone : Env := ⟨none, none⟩

/-! # Theorems -/

theorem doEditor_truthy : jsTruthyStr doEditor = true := by decide

theorem data_append (s t : String) : (s ++ t).data = s.data ++ t.data := rfl

theorem mk_data (s : String) : String.mk s.data = s := rfl

theorem jsTruthy_none : jsTruthy none = false := rfl

theorem jsTruthy_some (s : String) : jsTruthy (some s) = decide (s ≠ "") := rfl

theorem append_ne_empty_left (s t : String) (h : ¬s = "") : ¬(s ++ t = "") := by
  intro he
  apply h
  have hd : (s ++ t).data = [] := by rw [he]
  rw [data_append] at hd
  have hs : s.data = [] := (List.append_eq_nil.mp hd).1
  calc s = String.mk s.data := rfl
    _ = String.mk [] := by rw [hs]
    _ = "" := rfl

/-- C10: in the gastown extension `handleSessionStart`, a rejected or empty prime
invocation sends no message and never invokes the mail check; otherwise
exactly one message is sent, combining prime stdout, a blank line and the
mail stdout, delivered as steer with `triggerTurn` true. -/
theorem C10_prime_gates_mail (primeExec mailExec : ExecOutcome) :
    (((∃ m, primeExec = ExecOutcome.threw m) ∨ primeExec = ExecOutcome.ok ("")) →
      Gastown.handleSessionStart primeExec mailExec = ([Gastown.GtCall.prime], none))
    ∧ (∀ s : String, s ≠ "" → primeExec = ExecOutcome.ok s →
      Gastown.handleSessionStart primeExec mailExec =
        ([Gastown.GtCall.prime, Gastown.GtCall.mailCheck],
          some ({ customType := GASTOWN_MESSAGE_TYPE
                , content := s ++ "\n\n" ++ Gastown.gastownMailCheck mailExec
                , display := true },
                { triggerTurn := true, deliverAs := some ("steer") }))) := by
  constructor
  · intro h
    rcases h with ⟨m, rfl⟩ | rfl <;>
      simp [Gastown.handleSessionStart, Gastown.gastownPrime]
  · intro s hs h
    subst h
    simp [Gastown.handleSessionStart, Gastown.gastownPrime, hs]

theorem C10_witness :
    Gastown.handleSessionStart (ExecOutcome.threw ("e")) (ExecOutcome.ok ("m"))
      = ([Gastown.GtCall.prime], none)
    ∧ Gastown.handleSessionStart (ExecOutcome.ok ("p")) (ExecOutcome.ok ("m"))
      = ([Gastown.GtCall.prime, Gastown.GtCall.mailCheck],
          some ({ customType := GASTOWN_MESSAGE_TYPE
                , content := "p" ++ "\n\n" ++ Gastown.gastownMailCheck (ExecOutcome.ok ("m"))
                , display := true },
                { triggerTurn := true, deliverAs := some ("steer") })) :=
  ⟨(C10_prime_gates_mail (ExecOutcome.threw ("e")) (ExecOutcome.ok ("m"))).1 (Or.inl ⟨"e", rfl⟩),
   (C10_prime_gates_mail (ExecOutcome.ok ("p")) (ExecOutcome.ok ("m"))).2 ("p") (by decide) rfl⟩

/-- C9 (amended): with neither `$VISUAL` nor `$EDITOR` truthy, `runEditor`
returns exactly the no-editor-configured result — but its side-effect trace is
`[clearScreen]`: the screen is cleared before resolution, while no file is
read or written and the editor is never spawned. -/
theorem C9_no_editor_configured (w : EditorWorld) (filePath : String)
    (hv : jsTruthy w.env.VISUAL = false) (he : jsTruthy w.env.EDITOR = false) :
    runEditor w filePath =
      ({ content := none
       , error := some ("No editor configured. Set $VISUAL or $EDITOR environment variable.")
       , exitCode := none },
       [Effect.clearScreen]) := by
  have hcmd : getEditorCommand w.env = "" := by
    simp [getEditorCommand, hv, he]
  simp [runEditor, hcmd]

theorem C9_witness :
    runEditor ⟨demoEnvNone, SpawnOutcome.returned ⟨some 0, none, none⟩, ReadOutcome.ok ("x")⟩ ("f")
      = ({ content := none
         , error := some ("No editor configured. Set $VISUAL or $EDITOR environment variable.")
         , exitCode := none },
         [Effect.clearScreen]) :=
  C9_no_editor_configured
    ⟨demoEnvNone, SpawnOutcome.returned ⟨some 0, none, none⟩, ReadOutcome.ok ("x")⟩
    ("f") (by decide) (by decide)

/-- C9 counterexample: the claim asserts no terminal output is produced before
returning, but the screen-clear effect is emitted even when no editor is
configured (the clear precedes command resolution). -/
theorem C9_counterexample :
    Effect.clearScreen ∈
      (runEditor ⟨demoEnvNone, SpawnOutcome.returned ⟨some 0, none, none⟩,
        ReadOutcome.ok ("")⟩ ("f")).2 := by
  decide

/-- C8 (amended): every `EditorResult` from `runEditor` has `content` absent
whenever `error` is set; and `exitCode` is absent exactly when no editor
command resolved, the spawn threw, or the spawn returned no status (signal
termination) — not only in the unresolved-editor case.  In addition, whenever
the editor resolved and `spawnSync` returned a result, the returned `exitCode`
is that result status. -/
theorem C8_editor_result_invariant (w : EditorWorld) (filePath : String) :
    ((runEditor w filePath).1.error ≠ none → (runEditor w filePath).1.content = none)
    ∧ ((runEditor w filePath).1.exitCode = none ↔
        (getEditorCommand w.env = ""
          ∨ (∃ m, w.spawn = SpawnOutcome.threw m)
          ∨ (∃ r, w.spawn = SpawnOutcome.returned r ∧ r.status = none)))
    ∧ (∀ r : SpawnResult, w.spawn = SpawnOutcome.returned r →
        getEditorCommand w.env ≠ "" →
        (runEditor w filePath).1.exitCode = r.status) := by
  rcases w with ⟨env, spawn, readBack⟩
  by_cases hcmd : getEditorCommand env = ""
  · simp [runEditor, hcmd]
  · cases spawn with
    | threw m => simp [runEditor, hcmd]
    | returned r =>
      rcases r with ⟨status, rerr, rsig⟩
      by_cases hsig : jsTruthy rsig = true
      · have hne := append_ne_empty_left ("Killed by signal: ") (rsig.getD ("")) (by decide)
        simp [runEditor, hcmd, hsig, jsTruthy_some, hne]
      · have hsig2 : jsTruthy rsig = false := by
          revert hsig
          cases jsTruthy rsig <;> simp
        cases rerr with
        | none =>
          cases readBack with
          | ok content => simp [runEditor, hcmd, hsig2, jsTruthy_none]
          | failed msg => simp [runEditor, hcmd, hsig2, jsTruthy_none]
        | some m =>
          by_cases hm : m = ""
          · subst hm
            cases readBack with
            | ok content => simp [runEditor, hcmd, hsig2, jsTruthy_some]
            | failed msg => simp [runEditor, hcmd, hsig2, jsTruthy_some]
          · simp [runEditor, hcmd, hsig2, jsTruthy_some, hm]

theorem C8_witness :
    ((runEditor ⟨demoEnvVi, SpawnOutcome.returned ⟨some 0, none, some ("SIGHUP")⟩,
        ReadOutcome.ok ("x")⟩ ("f")).1.content = none)
    ∧ ((runEditor ⟨demoEnvVi, SpawnOutcome.returned ⟨none, none, some ("SIGHUP")⟩,
        ReadOutcome.ok ("x")⟩ ("f")).1.exitCode = none)
    ∧ ((runEditor ⟨demoEnvVi, SpawnOutcome.returned ⟨some 2, none, none⟩,
        ReadOutcome.ok ("x")⟩ ("f")).1.exitCode = some 2) :=
  ⟨(C8_editor_result_invariant
      ⟨demoEnvVi, SpawnOutcome.returned ⟨some 0, none, some ("SIGHUP")⟩,
        ReadOutcome.ok ("x")⟩ ("f")).1 (by decide),
   (C8_editor_result_invariant
      ⟨demoEnvVi, SpawnOutcome.returned ⟨none, none, some ("SIGHUP")⟩,
        ReadOutcome.ok ("x")⟩ ("f")).2.1.mpr
      (Or.inr (Or.inr ⟨⟨none, none, some ("SIGHUP")⟩, rfl, rfl⟩)),
   (C8_editor_result_invariant
      ⟨demoEnvVi, SpawnOutcome.returned ⟨some 2, none, none⟩,
        ReadOutcome.ok ("x")⟩ ("f")).2.2 ⟨some 2, none, none⟩ rfl (by decide)⟩

/-- C8 counterexample: the editor command resolves and the spawn is attempted,
yet the returned `exitCode` is null, because the editor was killed by a signal
and `spawnSync` reported no status. -/
theorem C8_counterexample :
    getEditorCommand demoEnvVi ≠ ""
    ∧ (runEditor ⟨demoEnvVi, SpawnOutcome.returned ⟨none, none, some ("SIGKILL")⟩,
        ReadOutcome.ok ("x")⟩ ("f")).1
      = { content := none, error := some ("Killed by signal: SIGKILL"), exitCode := none } := by
  decide

/-- C7: when an editor is configured, exits 0 without error, and the temp file
reads back as the written string `s`, `runEditor` returns `s` with exactly one
trailing newline stripped when one is present and `s` unchanged otherwise;
never more than one newline is removed. -/
theorem C7_editor_round_trip (w : EditorWorld) (filePath s : String)
    (hcmd : getEditorCommand w.env ≠ "")
    (hspawn : w.spawn = SpawnOutcome.returned ⟨some 0, none, none⟩)
    (hread : w.readBack = ReadOutcome.ok s) :
    (runEditor w filePath).1 = ⟨some (stripTrailingNewline s), none, some 0⟩
    ∧ (∀ t : String, stripTrailingNewline (t ++ "\n") = t)
    ∧ (s.data.getLast? = some (Char.ofNat 10) → stripTrailingNewline s ++ "\n" = s)
    ∧ (s.data.getLast? ≠ some (Char.ofNat 10) → stripTrailingNewline s = s) := by
  refine ⟨?_, ?_, ?_, ?_⟩
  · simp [runEditor, hcmd, hspawn, hread, jsTruthy]
  · intro t
    have hdata : (t ++ "\n").data = t.data ++ [Char.ofNat 10] := rfl
    simp [stripTrailingNewline, stripTrailingNewlineData, hdata]
  · intro hlast
    have hne : s.data ≠ [] := by
      intro h0
      rw [h0] at hlast
      exact Option.noConfusion hlast
    have hstep : s.data.dropLast ++ [Char.ofNat 10] = s.data := by
      have h1 : s.data.getLast hne = Char.ofNat 10 := by
        have := List.getLast?_eq_getLast s.data hne
        rw [this] at hlast
        exact Option.some.inj hlast
      rw [← h1]
      exact List.dropLast_append_getLast hne
    have : (stripTrailingNewline s ++ "\n").data = s.data := by
      simp [stripTrailingNewline, stripTrailingNewlineData, hlast, data_append]
      exact hstep
    calc stripTrailingNewline s ++ "\n"
        = String.mk ((stripTrailingNewline s ++ "\n").data) := rfl
      _ = String.mk s.data := by rw [this]
      _ = s := rfl
  · intro hlast
    simp [stripTrailingNewline, stripTrailingNewlineData, hlast]

theorem C7_witness :
    (runEditor ⟨demoEnvVi, SpawnOutcome.returned ⟨some 0, none, none⟩,
        ReadOutcome.ok ("hello\n")⟩ ("f")).1
      = ⟨some (stripTrailingNewline ("hello\n")), none, some 0⟩
    ∧ stripTrailingNewline ("abc" ++ "\n") = "abc" := by
  have h := C7_editor_round_trip
    ⟨demoEnvVi, SpawnOutcome.returned ⟨some 0, none, none⟩, ReadOutcome.ok ("hello\n")⟩
    ("f") ("hello\n") (by decide) rfl rfl
  exact ⟨h.1, h.2.1 ("abc")⟩

/-- C4: evaluating `QnAComponent.handleInput` at the failing input — Escape
received while `inputMode` is true — shows the whole form is cancelled
(`done none`) instead of the in-place edit cancel the claim describes (the
in-place branch is unreachable behind the top-level Escape check). -/
theorem C4_escape_in_editing_cancels_form :
    qnaHandleInput [⟨"Q1", none⟩] ⟨0, ["x"], true, "draft"⟩ KeyInput.escape
      = QnAStep.done none
    ∧ qnaHandleInput [⟨"Q1", none⟩] ⟨0, ["x"], true, "draft"⟩ KeyInput.escape
      ≠ QnAStep.cont ⟨0, ["x"], false, ""⟩ := by
  decide

/-- C3: evaluating `respondHandler` at the failing input — mode `tui-only`
with an editor configured — shows the editor step runs (its error decides the
outcome), because `doEditor` is the constant truthy string `"full"` rather
than a comparison against the mode. -/
theorem C3_editor_step_runs_in_tui_only :
    doEditor = "full"
    ∧ jsTruthyStr doEditor = true
    ∧ respondHandler
        ⟨true, true, demoBranch, ModelOutcome.ok, some ⟨[]⟩, none, demoEnvVi,
          WriteOutcome.ok, ⟨none, some ("boom"), some 1⟩, none⟩
        RespondMode.tuiOnly
      = ⟨[("Editor error: boom", NotifyLevel.error)], none⟩ := by
  refine ⟨rfl, rfl, ?_⟩
  decide

/-- C1: both `handleEditorResult` and the editor step of the respond
orchestrator
apply the four-way interpretation in fixed order: a truthy `error` yields an
error notification and no message regardless of the other fields; otherwise a
non-null non-zero `exitCode` yields a warning and no message even with content
present; otherwise absent-or-empty `content` yields an info notice and no
message; otherwise exactly one message carrying that content is sent. -/
theorem C1_four_way_dispatch (env : Env) (r : EditorResult) :
    ((jsTruthy r.error = true →
        handleEditorResult env r
          = Action.notify ("nvim error: " ++ r.error.getD ("")) NotifyLevel.error)
     ∧ (jsTruthy r.error = false → exitCodeNonZero r.exitCode = true →
        handleEditorResult env r
          = Action.notify (squote ++ getEditorCommand env ++ squote ++ " exited with code "
              ++ toString (r.exitCode.getD 0) ++ ". Not sending message") NotifyLevel.warning)
     ∧ (jsTruthy r.error = false → exitCodeNonZero r.exitCode = false →
        jsTruthy r.content = false →
        handleEditorResult env r = Action.notify ("No message to send") NotifyLevel.info)
     ∧ (jsTruthy r.error = false → exitCodeNonZero r.exitCode = false →
        jsTruthy r.content = true →
        handleEditorResult env r
          = Action.send ⟨PARROT_CUSTOM_MESSAGE_TYPE, r.content.getD (""), true⟩
              ⟨true, some ("steer")⟩))
    ∧ (∀ (mode : RespondMode) (unlinkErr : Option String) (compiled : String),
        getEditorCommand env ≠ "" →
        ((jsTruthy r.error = true →
            respondAfterCompile mode env WriteOutcome.ok r unlinkErr compiled
              = ⟨unlinkNotifs unlinkErr
                  ++ [("Editor error: " ++ r.error.getD (""), NotifyLevel.error)], none⟩)
         ∧ (jsTruthy r.error = false → exitCodeNonZero r.exitCode = true →
            respondAfterCompile mode env WriteOutcome.ok r unlinkErr compiled
              = ⟨unlinkNotifs unlinkErr
                  ++ [(squote ++ getEditorCommand env ++ squote ++ " exited with code "
                        ++ toString (r.exitCode.getD 0) ++ ". Not sending message",
                      NotifyLevel.warning)], none⟩)
         ∧ (jsTruthy r.error = false → exitCodeNonZero r.exitCode = false →
            jsTruthy r.content = false →
            respondAfterCompile mode env WriteOutcome.ok r unlinkErr compiled
              = ⟨unlinkNotifs unlinkErr ++ [("No message to send", NotifyLevel.info)], none⟩)
         ∧ (jsTruthy r.error = false → exitCodeNonZero r.exitCode = false →
            jsTruthy r.content = true →
            respondAfterCompile mode env WriteOutcome.ok r unlinkErr compiled
              = ⟨unlinkNotifs unlinkErr, respondSend mode (r.content.getD (""))⟩))) := by
  refine ⟨⟨?_, ?_, ?_, ?_⟩, fun mode unlinkErr compiled hcmd => ⟨?_, ?_, ?_, ?_⟩⟩ <;>
    intros <;>
    simp_all [handleEditorResult, respondAfterCompile, doEditor_truthy]

theorem C1_witness :
    handleEditorResult demoEnvVi ⟨some ("body"), some ("oops"), some 0⟩
      = Action.notify ("nvim error: " ++ (some ("oops")).getD ("")) NotifyLevel.error
    ∧ respondAfterCompile RespondMode.full demoEnvVi WriteOutcome.ok
        ⟨some ("body"), some ("oops"), some 0⟩ none ("c")
      = ⟨unlinkNotifs none
          ++ [("Editor error: " ++ (some ("oops")).getD (""), NotifyLevel.error)], none⟩ := by
  have h := C1_four_way_dispatch demoEnvVi ⟨some ("body"), some ("oops"), some 0⟩
  exact ⟨h.1.1 (by decide), (h.2 RespondMode.full none ("c") (by decide)).1 (by decide)⟩

/-- C2: with preconditions satisfied and extraction running (mode not
editor-only), a null extraction result yields a single neutral Cancelled
notice and no message; a zero-question result skips the Q&A form (the outcome
does not depend on the form oracle) and seeds the compiled content with the
raw last-assistant text; one or more questions run the form, whose null
outcome likewise yields Cancelled and no message. -/
theorem C2_extraction_dispatch (e : RespondEnv) (mode : RespondMode) (t : String)
    (hui : e.hasUI = true) (hm : e.hasModel = true)
    (hlast : findLastAssistantMessage e.branch = some t)
    (hmo : e.modelOk = ModelOutcome.ok)
    (hmode : mode ≠ RespondMode.editorOnly) :
    (e.extraction = none →
      respondHandler e mode = ⟨[("Cancelled", NotifyLevel.info)], none⟩)
    ∧ (e.extraction = some ⟨[]⟩ →
      respondHandler e mode
        = respondAfterCompile mode e.env e.writeOk e.editorResult e.unlinkErr t)
    ∧ (∀ qs : List ExtractedQuestion, qs ≠ [] → e.extraction = some ⟨qs⟩ →
        e.qna = none →
        respondHandler e mode = ⟨[("Cancelled", NotifyLevel.info)], none⟩) := by
  refine ⟨?_, ?_, ?_⟩
  · intro hex
    simp [respondHandler, hui, hm, hlast, hmo, hmode, hex]
  · intro hex
    simp [respondHandler, hui, hm, hlast, hmo, hmode, hex]
  · intro qs hqs hex hq
    have hlen : ¬(qs.length = 0) := by
      simpa [List.length_eq_zero] using hqs
    simp [respondHandler, hui, hm, hlast, hmo, hmode, hex, hlen, hq]

theorem C2_witness :
    respondHandler
        ⟨true, true, demoBranch, ModelOutcome.ok, none, none, demoEnvNone,
          WriteOutcome.ok, ⟨some ("x"), none, some 0⟩, none⟩ RespondMode.full
      = ⟨[("Cancelled", NotifyLevel.info)], none⟩
    ∧ respondHandler
        ⟨true, true, demoBranch, ModelOutcome.ok, some ⟨[]⟩, none, demoEnvNone,
          WriteOutcome.ok, ⟨some ("x"), none, some 0⟩, none⟩ RespondMode.full
      = respondAfterCompile RespondMode.full demoEnvNone WriteOutcome.ok
          ⟨some ("x"), none, some 0⟩ none ("Hi")
    ∧ respondHandler
        ⟨true, true, demoBranch, ModelOutcome.ok, some ⟨[⟨"Q1", none⟩]⟩, none, demoEnvNone,
          WriteOutcome.ok, ⟨some ("x"), none, some 0⟩, none⟩ RespondMode.tuiOnly
      = ⟨[("Cancelled", NotifyLevel.info)], none⟩ := by
  refine ⟨?_, ?_, ?_⟩
  · exact (C2_extraction_dispatch _ RespondMode.full ("Hi") rfl rfl (by decide) rfl
      (by decide)).1 rfl
  · exact (C2_extraction_dispatch _ RespondMode.full ("Hi") rfl rfl (by decide) rfl
      (by decide)).2.1 rfl
  · exact (C2_extraction_dispatch _ RespondMode.tuiOnly ("Hi") rfl rfl (by decide) rfl
      (by decide)).2.2 [⟨"Q1", none⟩] (by decide) rfl rfl

theorem findLastAssistantMessageRev_eq_find (l : List SessionEntry) :
    findLastAssistantMessageRev l
      = (l.find? isAssistantTextEntry).map entryJoinedText := by
  induction l with
  | nil => rfl
  | cons e rest ih =>
    cases e with
    | otherEntry tag =>
      have hp : ¬isAssistantTextEntry (SessionEntry.otherEntry tag) = true := by
        simp [isAssistantTextEntry]
      simp [findLastAssistantMessageRev, List.find?_cons_of_neg _ hp, ih]
    | message m =>
      by_cases hrole : m.role = Role.assistant
      · cases hparts : textParts m.content with
        | nil =>
          have hp : ¬isAssistantTextEntry (SessionEntry.message m) = true := by
            simp [isAssistantTextEntry, hparts]
          simp [findLastAssistantMessageRev, hrole, hparts,
            List.find?_cons_of_neg _ hp, ih]
        | cons p ps =>
          have hp : isAssistantTextEntry (SessionEntry.message m) = true := by
            simp [isAssistantTextEntry, hrole, hparts]
          simp [findLastAssistantMessageRev, hrole, hparts,
            List.find?_cons_of_pos _ hp, entryJoinedText]
      · have hp : ¬isAssistantTextEntry (SessionEntry.message m) = true := by
          simp [isAssistantTextEntry, hrole]
        simp [findLastAssistantMessageRev, hrole, List.find?_cons_of_neg _ hp, ih]

/-- C5: `findLastAssistantMessage` returns the blank-line-joined text segments
of the most recent assistant message entry having at least one text segment
(the first such entry of the reversed sequence), and returns none when no
entry qualifies — in particular for the empty sequence, for sequences without
assistant messages, and when all assistant entries hold only non-text
segments. -/
theorem C5_find_last_assistant (entries : List SessionEntry) :
    findLastAssistantMessage entries
      = (entries.reverse.find? isAssistantTextEntry).map entryJoinedText
    ∧ ((∀ e ∈ entries, isAssistantTextEntry e = false) →
        findLastAssistantMessage entries = none) := by
  constructor
  · exact findLastAssistantMessageRev_eq_find entries.reverse
  · intro h
    rw [findLastAssistantMessage, findLastAssistantMessageRev_eq_find]
    have : entries.reverse.find? isAssistantTextEntry = none := by
      rw [List.find?_eq_none]
      intro x hx
      simp [h x (List.mem_reverse.mp hx)]
    rw [this]
    rfl

theorem C5_witness :
    findLastAssistantMessage demoEntries = some ("a" ++ "\n\n" ++ "b")
    ∧ findLastAssistantMessage [] = none := by
  refine ⟨?_, ?_⟩
  · rw [(C5_find_last_assistant demoEntries).1]
    decide
  · exact (C5_find_last_assistant []).2 (by simp)

/-! ## Occurrence-counting lemmas for `compileAnswers` -/

theorem countOccs_nil (pat : List Char) (hne : pat ≠ []) : countOccs pat [] = 0 := by
  cases pat with
  | nil => exact absurd rfl hne
  | cons p ps => simp [countOccs, List.isPrefixOf]

theorem countOccs_cons (pat : List Char) (c : Char) (l : List Char) :
    countOccs pat (c :: l) = (if pat.isPrefixOf (c :: l) then 1 else 0) + countOccs pat l := rfl

theorem isPrefixOf_cons_false (p : Char) (ps : List Char) (c : Char) (l : List Char)
    (h : p ≠ c) : (p :: ps).isPrefixOf (c :: l) = false := by
  simp [List.isPrefixOf, h]

theorem countOccs_append_left_notMem (pat : List Char) (p : Char)
    (hp : pat.head? = some p) (u l : List Char) (hmem : p ∉ u) :
    countOccs pat (u ++ l) = countOccs pat l := by
  induction u with
  | nil => rfl
  | cons x u ih =>
    have hpx : p ≠ x := fun h => hmem (h ▸ List.mem_cons_self x u)
    cases pat with
    | nil => exact Option.noConfusion hp
    | cons q qs =>
      have hq : q = p := by
        have : some q = some p := hp
        exact Option.some.inj this
      subst hq
      rw [List.cons_append, countOccs_cons,
        isPrefixOf_cons_false q qs x (u ++ l) hpx]
      simpa using ih (fun h => hmem (List.mem_cons_of_mem x h))

theorem isPrefixOf_append_single (c : Char) (q : Char) :
    ∀ (pat t : List Char), pat.getLast? = some q → q ≠ c →
      pat.isPrefixOf (t ++ [c]) = pat.isPrefixOf t := by
  intro pat
  induction pat with
  | nil => intro t _ _; simp [List.isPrefixOf]
  | cons p ps ih =>
    intro t hlast hqc
    cases t with
    | nil =>
      cases ps with
      | nil =>
        have hpq : p = q := by
          have h2 : some p = some q := hlast
          exact Option.some.inj h2
        subst hpq
        simp [List.isPrefixOf, hqc]
      | cons p2 ps2 =>
        simp [List.isPrefixOf]
    | cons a t2 =>
      cases ps with
      | nil => simp [List.isPrefixOf]
      | cons p2 ps2 =>
        have hlast2 : (p2 :: ps2).getLast? = some q := by
          rw [List.getLast?_cons_cons] at hlast
          exact hlast
        simp [List.isPrefixOf, ih t2 hlast2 hqc]

theorem countOccs_append_single (pat : List Char) (q c : Char)
    (hlast : pat.getLast? = some q) (hqc : q ≠ c) (hne : pat ≠ []) (l : List Char) :
    countOccs pat (l ++ [c]) = countOccs pat l := by
  induction l with
  | nil =>
    have h1 : pat.isPrefixOf ([c]) = pat.isPrefixOf [] := by
      have := isPrefixOf_append_single c q pat [] hlast hqc
      simpa using this
    cases pat with
    | nil => exact absurd rfl hne
    | cons p ps =>
      rw [List.nil_append, countOccs_cons, countOccs_nil _ hne, h1]
      simp [List.isPrefixOf, countOccs_nil _ hne]
  | cons a l2 ih =>
    rw [List.cons_append, countOccs_cons, countOccs_cons]
    have h3 := isPrefixOf_append_single c q pat (a :: l2) hlast hqc
    rw [List.cons_append] at h3
    rw [h3, ih]

theorem countOccs_append_right_notMem (pat : List Char) (q : Char)
    (hlast : pat.getLast? = some q) (hne : pat ≠ []) :
    ∀ (w l : List Char), q ∉ w → countOccs pat (l ++ w) = countOccs pat l := by
  intro w
  induction w with
  | nil => intro l _; rw [List.append_nil]
  | cons c w2 ih =>
    intro l hmem
    have hqc : q ≠ c := fun h => hmem (h ▸ List.mem_cons_self c w2)
    have h2 : l ++ c :: w2 = (l ++ [c]) ++ w2 := by
      rw [List.append_assoc]
      rfl
    rw [h2, ih (l ++ [c]) (fun h => hmem (List.mem_cons_of_mem c h)),
      countOccs_append_single pat q c hlast hqc hne]

theorem isPrefixOf_append_cons (c : Char) :
    ∀ (pat t y : List Char), c ∉ pat →
      pat.isPrefixOf (t ++ c :: y) = pat.isPrefixOf t := by
  intro pat
  induction pat with
  | nil => intro t y _; simp [List.isPrefixOf]
  | cons p ps ih =>
    intro t y hmem
    have hpc : p ≠ c := fun h => hmem (h ▸ List.mem_cons_self p ps)
    cases t with
    | nil =>
      simp [List.isPrefixOf, hpc]
    | cons a t2 =>
      simp [List.isPrefixOf, ih t2 y (fun h => hmem (List.mem_cons_of_mem p h))]

theorem countOccs_append_cons (pat : List Char) (c : Char)
    (hmem : c ∉ pat) (hne : pat ≠ []) (x y : List Char) :
    countOccs pat (x ++ c :: y) = countOccs pat x + countOccs pat y := by
  induction x with
  | nil =>
    have h1 : pat.isPrefixOf (c :: y) = false := by
      have := isPrefixOf_append_cons c pat [] y hmem
      simp at this
      rw [this]
      cases pat with
      | nil => exact absurd rfl hne
      | cons p ps => simp [List.isPrefixOf]
    rw [List.nil_append, countOccs_cons, h1, countOccs_nil _ hne]
    simp
  | cons a x2 ih =>
    rw [List.cons_append, countOccs_cons, countOccs_cons]
    have h3 := isPrefixOf_append_cons c pat (a :: x2) y hmem
    rw [List.cons_append] at h3
    rw [h3, ih]
    omega

theorem countOccs_join (pat : List Char) (sep : Char)
    (hmem : sep ∉ pat) (hne : pat ≠ []) :
    ∀ parts : List (List Char),
      countOccs pat (joinChars sep parts) = (parts.map (countOccs pat)).sum := by
  intro parts
  induction parts with
  | nil => simp [joinChars, countOccs_nil _ hne]
  | cons x rest ih =>
    cases rest with
    | nil => simp [joinChars]
    | cons y rest2 =>
      rw [joinChars, countOccs_append_cons pat sep hmem hne, ih]
      simp

theorem mem_takeWhile_ws (p : Char → Bool) :
    ∀ (l : List Char) (x : Char), x ∈ l.takeWhile p → p x = true := by
  intro l
  induction l with
  | nil => intro x hx; simp [List.takeWhile] at hx
  | cons a l2 ih =>
    intro x hx
    by_cases ha : p a = true
    · rw [List.takeWhile_cons, if_pos ha] at hx
      rcases List.mem_cons.mp hx with h | h
      · rwa [h]
      · exact ih x h
    · rw [List.takeWhile_cons, if_neg ha] at hx
      simp at hx

theorem countOccs_jsTrimChars (pat : List Char) (p q : Char)
    (hp : pat.head? = some p) (hq : pat.getLast? = some q)
    (hpws : Char.isWhitespace p = false) (hqws : Char.isWhitespace q = false)
    (hne : pat ≠ []) (l : List Char) :
    countOccs pat (jsTrimChars l) = countOccs pat l := by
  have hsplit1 : l = l.takeWhile Char.isWhitespace ++ l.dropWhile Char.isWhitespace :=
    (List.takeWhile_append_dropWhile Char.isWhitespace l).symm
  have hstep1 : countOccs pat l = countOccs pat (l.dropWhile Char.isWhitespace) := by
    conv_lhs => rw [hsplit1]
    apply countOccs_append_left_notMem pat p hp
    intro hmemp
    rw [mem_takeWhile_ws Char.isWhitespace l p hmemp] at hpws
    exact Bool.noConfusion hpws
  set m := l.dropWhile Char.isWhitespace with hm
  have hsplit2 : m = jsTrimChars l ++ (m.reverse.takeWhile Char.isWhitespace).reverse := by
    have h1 : m.reverse = m.reverse.takeWhile Char.isWhitespace
        ++ m.reverse.dropWhile Char.isWhitespace :=
      (List.takeWhile_append_dropWhile Char.isWhitespace m.reverse).symm
    calc m = m.reverse.reverse := (List.reverse_reverse m).symm
      _ = (m.reverse.takeWhile Char.isWhitespace
            ++ m.reverse.dropWhile Char.isWhitespace).reverse := by rw [← h1]
      _ = (m.reverse.dropWhile Char.isWhitespace).reverse
            ++ (m.reverse.takeWhile Char.isWhitespace).reverse := by
          rw [List.reverse_append]
      _ = jsTrimChars l ++ (m.reverse.takeWhile Char.isWhitespace).reverse := rfl
  have hstep2 : countOccs pat m = countOccs pat (jsTrimChars l) := by
    conv_lhs => rw [hsplit2]
    apply countOccs_append_right_notMem pat q hq hne
    intro hmemq
    have hq2 : q ∈ m.reverse.takeWhile Char.isWhitespace := List.mem_reverse.mp hmemq
    rw [mem_takeWhile_ws Char.isWhitespace m.reverse q hq2] at hqws
    exact Bool.noConfusion hqws
  rw [hstep1, hstep2]

theorem answerText_of_all_empty (answers : List String)
    (hempty : ∀ a ∈ answers, a = "") : answerText answers.head? = noAnswerLit := by
  cases answers with
  | nil => rfl
  | cons a rest =>
    have ha : a = "" := hempty a (List.mem_cons_self a rest)
    subst ha
    rfl

theorem countOccs_compileParts (questions : List ExtractedQuestion) :
    ∀ answers : List String, (∀ a ∈ answers, a = "") →
      (∀ q ∈ questions, countOccs noAnswerLit.data q.question.data = 0
        ∧ countOccs noAnswerLit.data (q.context.getD ("")).data = 0) →
      ((compileParts questions answers).map
        (fun s => countOccs noAnswerLit.data s.data)).sum = questions.length := by
  induction questions with
  | nil => intro answers _ _; rfl
  | cons q qs ih =>
    intro answers hempty hq
    have hqhead := hq q (List.mem_cons_self q qs)
    have hrest := ih answers.tail
      (fun a ha => hempty a (List.mem_of_mem_tail ha))
      (fun q2 h2 => hq q2 (List.mem_cons_of_mem q h2))
    have hqline : countOccs noAnswerLit.data ("Q: " ++ q.question).data = 0 := by
      rw [data_append,
        countOccs_append_left_notMem noAnswerLit.data (Char.ofNat 40) (by decide)
          ("Q: ").data q.question.data (by decide)]
      exact hqhead.1
    have hcline : countOccs noAnswerLit.data ("> " ++ q.context.getD ("")).data = 0 := by
      rw [data_append,
        countOccs_append_left_notMem noAnswerLit.data (Char.ofNat 40) (by decide)
          ("> ").data (q.context.getD ("")).data (by decide)]
      exact hqhead.2
    have haline : countOccs noAnswerLit.data ("A: " ++ answerText answers.head?).data = 1 := by
      rw [answerText_of_all_empty answers hempty]
      decide
    have hblank : countOccs noAnswerLit.data ("" : String).data = 0 := by decide
    by_cases hctx : jsTruthy q.context = true
    · simp only [compileParts, List.length_cons]
      rw [if_pos hctx]
      simp only [List.map_append, List.map_cons, List.map_nil, List.sum_append,
        List.sum_cons, List.sum_nil, List.append_nil, List.nil_append]
      rw [hqline, hcline, haline, hblank, hrest]
      omega
    · simp only [compileParts, List.length_cons]
      rw [if_neg hctx]
      simp only [List.map_append, List.map_cons, List.map_nil, List.sum_append,
        List.sum_cons, List.sum_nil, List.append_nil, List.nil_append]
      rw [hqline, haline, hblank, hrest]
      omega

/-- C6 (amended): for a question list of length N with an index-aligned answer
list in which every answer is the empty string, and in which no question text
or context itself contains the literal `(no answer)`, the compiled transcript
contains the literal substring `(no answer)` exactly N times (one `A:` line
placeholder per question). -/
theorem C6_compile_no_answer_count (questions : List ExtractedQuestion)
    (answers : List String)
    (_hlen : answers.length = questions.length)
    (hempty : ∀ a ∈ answers, a = "")
    (hq : ∀ q ∈ questions, countOccsStr noAnswerLit q.question = 0
          ∧ countOccsStr noAnswerLit (q.context.getD ("")) = 0) :
    countOccsStr noAnswerLit (compileAnswers questions answers) = questions.length := by
  show countOccs noAnswerLit.data
      (String.mk (jsTrimChars (joinChars (Char.ofNat 10)
        ((compileParts questions answers).map String.data)))).data
    = questions.length
  rw [show (String.mk (jsTrimChars (joinChars (Char.ofNat 10)
        ((compileParts questions answers).map String.data)))).data
      = jsTrimChars (joinChars (Char.ofNat 10)
        ((compileParts questions answers).map String.data)) from rfl]
  rw [countOccs_jsTrimChars noAnswerLit.data (Char.ofNat 40) (Char.ofNat 41)
    (by decide) (by decide) (by decide) (by decide) (by decide)]
  rw [countOccs_join noAnswerLit.data (Char.ofNat 10) (by decide) (by decide)]
  rw [List.map_map]
  exact countOccs_compileParts questions answers hempty hq

/-- C6 counterexample: a question whose own text is the literal `(no answer)`
makes the compiled transcript contain the literal 2 times for a single-question
list with the empty answer, so the count is not the list length. -/
theorem C6_counterexample :
    countOccsStr noAnswerLit (compileAnswers [⟨noAnswerLit, none⟩] [""]) = 2
    ∧ countOccsStr noAnswerLit (compileAnswers [⟨noAnswerLit, none⟩] [""])
      ≠ ([(⟨noAnswerLit, none⟩ : ExtractedQuestion)]).length := by
  decide

theorem C6_witness :
    countOccsStr noAnswerLit
      (compileAnswers [⟨"A?", some ("ctx")⟩, ⟨"B?", none⟩] ["", ""]) = 2 :=
  C6_compile_no_answer_count [⟨"A?", some ("ctx")⟩, ⟨"B?", none⟩] ["", ""]
    (by decide) (by decide) (by decide)

end Picadillo
